import Mathlib

/-!
Verification development for the sharded replicated key-value store
(`shardkv` package): a shallow embedding in Lean 4 of the per-server
shard replica logic — duplicate detection, client command application,
reconfiguration (`prepareMigration`), shard migration ingestion, the
request-path admission checks (`doit`), the `ShardMigration` RPC
pre-checks, and the snapshot codec round-trip — together with theorems
settling the specification's claims about that logic.

Go maps are modelled as association lists with unique keys maintained by
the update operation; Go slices/arrays as Lean lists; Go `int` counters
(serial numbers, configuration numbers, shard and group ids) as `Nat`;
Go `int64` client ids as `Int`.  A Go `panic` (unknown payload type,
out-of-range index) is modelled as `Option.none`.
-/

/-- Modelled from the spec: error codes (`OK`, `ErrNoKey`, `ErrWrongGroup`,
`ErrWrongLeader`, `ErrOutdatedConfig`, `ErrUpdatingConfig`) declared in the
repository's common definitions file, which is not under `src/`. -/
inductive Err where
  | OK
  | ErrNoKey
  | ErrWrongGroup
  | ErrWrongLeader
  | ErrOutdatedConfig
  | ErrUpdatingConfig
deriving DecidableEq, Repr

/-- Modelled from the spec: shard statuses (`ShardOK`, `ShardMigrationOut`,
`ShardMigrationIn`) declared in the repository's common definitions file,
which is not under `src/`. -/
inductive ShardStatus where
  | ShardOK
  | ShardMigrationOut
  | ShardMigrationIn
deriving DecidableEq, Repr

/-- Modelled from the spec: `shardctrler.NShards`, the fixed shard count of
the external shard controller (10 in the lab infrastructure). -/
def NShards : Nat := 10

/-- A Go `map` as an association list; keys are unique in every map built
by `assocPut` from the empty map. -/
abbrev AssocMap (α β : Type) := List (α × β)

/-- Lookup in an association list (Go `m[k]` with `ok` flag). -/
def assocGet {α β : Type} [DecidableEq α] : AssocMap α β → α → Option β
  | [], _ => none
  | (k', v') :: rest, k => if k' = k then some v' else assocGet rest k

/-- Update/insert in an association list (Go `m[k] = v`). -/
def assocPut {α β : Type} [DecidableEq α] : AssocMap α β → α → β → AssocMap α β
  | [], k, v => [(k, v)]
  | (k', v') :: rest, k, v =>
      if k' = k then (k, v) :: rest else (k', v') :: assocPut rest k v

/-- A shard's key/value data: Go `map[string]string`. -/
abbrev KVMap := AssocMap String String

/-- List indexing (Go `xs[i]`; `none` models an index-out-of-range panic). -/
def listGet {α : Type} : List α → Nat → Option α
  | [], _ => none
  | x :: _, 0 => some x
  | _ :: rest, n + 1 => listGet rest n

/-- List update (Go `xs[i] = a`; out-of-range leaves the list unchanged,
which the embedding never relies on: every use is guarded by `listGet`). -/
def listSet {α : Type} : List α → Nat → α → List α
  | [], _, _ => []
  | _ :: rest, 0, a => a :: rest
  | x :: rest, n + 1, a => x :: listSet rest n a

/-- `shardctrler.Config`: a numbered shard-to-group assignment plus the
server roster of each group (external collaborator's type, mirrored as
used by the source). -/
structure Config where
  Num : Nat
  Shards : List Nat
  Groups : AssocMap Nat (List String)
deriving DecidableEq, Repr

/-- `type Shard struct { Status ShardStatus; Data map[string]string }`. -/
structure Shard where
  Status : ShardStatus
  Data : KVMap
deriving DecidableEq, Repr

/-- `type DupEntry struct { SN int; Value string; Err Err }`. -/
structure DupEntry where
  SN : Nat
  Value : String
  Err : Err
deriving DecidableEq, Repr

/-- `type doitResult struct { ClientId int64; SN int; Value string; Err Err }`. -/
structure doitResult where
  ClientId : Int
  SN : Nat
  Value : String
  Err : Err
deriving DecidableEq, Repr

/-- `type ClientPlayload struct { Type, Key, Value string; Shard int }`.
The Go field `Type` is spelled `Ty` because `Type` is reserved in Lean. -/
structure ClientPlayload where
  Ty : String
  Key : String
  Value : String
  Shard : Nat
deriving DecidableEq, Repr

/-- `type ServerPlayload struct { Type string; Sids []int;
Data []map[string]string; Config shardctrler.Config }`.  The Go field
`Type` is spelled `Ty` because `Type` is reserved in Lean. -/
structure ServerPlayload where
  Ty : String
  Sids : List Nat
  Data : List KVMap
  Config : Config
deriving DecidableEq, Repr

/-- The `Op.Playload interface{}` field: in the source it only ever holds a
`ClientPlayload` or a `ServerPlayload` (anything else panics in the
applier's `default` branches, modelled as `none`). -/
inductive Playload where
  | client (pl : ClientPlayload)
  | server (pl : ServerPlayload)
deriving DecidableEq, Repr

/-- `type Op struct { ClientId int64; SN int; Playload interface{} }`. -/
structure Op where
  ClientId : Int
  SN : Nat
  Playload : Playload
deriving DecidableEq, Repr

/-- The persisted/locked portion of `ShardKV` that the claims are about:
`gid` plus the snapshot triple (`Shards`, `DupTable`, `Config`).  The
volatile fields (`resultCh`, `lastApplied`, channels, raft handle) carry
no claim-relevant state. -/
structure ShardKVState where
  gid : Nat
  Shards : List Shard
  DupTable : AssocMap Int DupEntry
  Config : Config
deriving DecidableEq, Repr

/-- `copyOfData`: builds a fresh map holding the same entries (deep copy). -/
def copyOfData (data : KVMap) : KVMap :=
  data.foldl (fun result kv => assocPut result kv.1 kv.2) []

/-- Per-shard status transition inside `prepareMigration`'s loop body:
skip when the assignment is unchanged, mark `ShardMigrationOut` when this
group loses the shard, mark `ShardMigrationIn` when this group gains it
from a non-sentinel owner (the two marks are mutually exclusive). -/
def shardAfterConfig (gid oldG newG : Nat) (sh : Shard) : Shard :=
  if oldG = newG then sh
  else
    let sh1 := if oldG = gid then { sh with Status := ShardStatus.ShardMigrationOut } else sh
    if newG = gid ∧ oldG ≠ 0 then { sh1 with Status := ShardStatus.ShardMigrationIn } else sh1

/-- Index-wise triple zip, used to run `prepareMigration`'s loop over
(old assignment, new assignment, shard) simultaneously. -/
def zipWith3 {α β γ δ : Type} (f : α → β → γ → δ) : List α → List β → List γ → List δ
  | a :: as, b :: bs, c :: cs => f a b c :: zipWith3 f as bs cs
  | _, _, _ => []

/-- `prepareMigration`: ignore a configuration whose `Num` is not strictly
greater than the current one; otherwise walk the shards, halt the ones
that migrate in or out, install the new configuration, and report whether
any shard was marked `ShardMigrationOut`. -/
def prepareMigration (kv : ShardKVState) (newConfig : Config) : ShardKVState × Bool :=
  if kv.Config.Num ≥ newConfig.Num then (kv, false)
  else
    let shards' := zipWith3 (shardAfterConfig kv.gid) kv.Config.Shards newConfig.Shards kv.Shards
    let needMigration :=
      (kv.Config.Shards.zip newConfig.Shards).any (fun p => p.1 != p.2 && p.1 == kv.gid)
    ({ kv with Shards := shards', Config := newConfig }, needMigration)

/-- The `"MigrationIn"` loop of `ingestCommand`: for each listed shard id
whose local status is `ShardMigrationIn`, install a deep copy of the
payload's map for that shard and flip the status to `ShardOK`. -/
def applyMigrationIn (payloadData : List KVMap) :
    List Shard → List Nat → Option (List Shard)
  | shards, [] => some shards
  | shards, sid :: rest =>
    match listGet shards sid with
    | none => none
    | some sh =>
      if sh.Status = ShardStatus.ShardMigrationIn then
        match listGet payloadData sid with
        | none => none
        | some d =>
            applyMigrationIn payloadData
              (listSet shards sid { Status := ShardStatus.ShardOK, Data := copyOfData d }) rest
      else applyMigrationIn payloadData shards rest

/-- The `DupTable` write at the end of `ingestCommand`. -/
def recordDup (t : AssocMap Int DupEntry) (r : doitResult) : AssocMap Int DupEntry :=
  assocPut t r.ClientId { SN := r.SN, Value := r.Value, Err := r.Err }

/-- `ingestCommand`: apply one committed command to the state, returning
the updated state and the result that would be delivered on the reply
channel.  The duplicate-table check only pre-loads the result from the
cache when the serial numbers are equal — as in the source, control then
falls through into the payload switch.  The `"Config"` and
`"MigrationOut"` branches return early without recording in the duplicate
table (the raft re-submission and channel signal they perform are effects
outside this state).  `none` models the source's panics. -/
def ingestCommand (kv : ShardKVState) (op : Op) : Option (ShardKVState × doitResult) :=
  let r0 : doitResult := { ClientId := op.ClientId, SN := op.SN, Value := "", Err := Err.OK }
  let result :=
    match assocGet kv.DupTable op.ClientId with
    | some dEntry =>
        if dEntry.SN ≥ op.SN then
          if dEntry.SN = op.SN then { r0 with Value := dEntry.Value, Err := dEntry.Err } else r0
        else r0
    | none => r0
  match op.Playload with
  | Playload.client pl =>
    match pl.Ty with
    | "Get" =>
      match listGet kv.Shards pl.Shard with
      | none => none
      | some sh =>
        let result :=
          match assocGet sh.Data pl.Key with
          | some value => { result with Value := value }
          | none => { result with Err := Err.ErrNoKey }
        some ({ kv with DupTable := recordDup kv.DupTable result }, result)
    | "Put" =>
      match listGet kv.Shards pl.Shard with
      | none => none
      | some sh =>
        some ({ kv with
                  Shards := listSet kv.Shards pl.Shard
                    { sh with Data := assocPut sh.Data pl.Key pl.Value },
                  DupTable := recordDup kv.DupTable result }, result)
    | "Append" =>
      match listGet kv.Shards pl.Shard with
      | none => none
      | some sh =>
        some ({ kv with
                  Shards := listSet kv.Shards pl.Shard
                    { sh with Data :=
                        assocPut sh.Data pl.Key ((assocGet sh.Data pl.Key).getD "" ++ pl.Value) },
                  DupTable := recordDup kv.DupTable result }, result)
    | _ => none
  | Playload.server pl =>
    match pl.Ty with
    | "Config" => some ((prepareMigration kv pl.Config).1, result)
    | "MigrationOut" => some (kv, result)
    | "MigrationIn" =>
      match applyMigrationIn pl.Data kv.Shards pl.Sids with
      | none => none
      | some shards' =>
        some ({ kv with Shards := shards', DupTable := recordDup kv.DupTable result }, result)
    | _ => none

/-- What `doit` does before (or instead of) waiting on the reply channel:
either an immediate reply or the decision to submit to the log. -/
inductive DoitOutcome where
  | reply (r : doitResult)
  | submit
deriving DecidableEq, Repr

/-- `doit` after the duplicate-table check failed to hit: the
shard-ownership/status admission check for client payloads, then the
leadership check at `rf.Start` (submission by a non-leader is a raft
no-op, so the two are folded into the `isLeader` flag). -/
def doitAfterDup (kv : ShardKVState) (op : Op) (isLeader : Bool) : Option DoitOutcome :=
  let r0 : doitResult := { ClientId := op.ClientId, SN := op.SN, Value := "", Err := Err.OK }
  match op.Playload with
  | Playload.client pl =>
    match listGet kv.Config.Shards pl.Shard with
    | none => none
    | some g =>
      if g ≠ kv.gid then some (DoitOutcome.reply { r0 with Err := Err.ErrWrongGroup })
      else
        match listGet kv.Shards pl.Shard with
        | none => none
        | some sh =>
          if sh.Status ≠ ShardStatus.ShardOK then
            some (DoitOutcome.reply { r0 with Err := Err.ErrWrongGroup })
          else if isLeader then some DoitOutcome.submit
          else some (DoitOutcome.reply { r0 with Err := Err.ErrWrongLeader })
  | Playload.server _ =>
    if isLeader then some DoitOutcome.submit
    else some (DoitOutcome.reply { r0 with Err := Err.ErrWrongLeader })

/-- `doit`'s synchronous decision: answer a same-serial replay from the
duplicate table (before any ownership check), otherwise fall through to
the admission and leadership checks. -/
def doit (kv : ShardKVState) (op : Op) (isLeader : Bool) : Option DoitOutcome :=
  let r0 : doitResult := { ClientId := op.ClientId, SN := op.SN, Value := "", Err := Err.OK }
  match assocGet kv.DupTable op.ClientId with
  | some dEntry =>
    if dEntry.SN = op.SN then
      some (DoitOutcome.reply { r0 with Value := dEntry.Value, Err := Err.OK })
    else doitAfterDup kv op isLeader
  | none => doitAfterDup kv op isLeader

/-- The `ShardMigration` RPC handler's pre-check under the lock: compare
the request's configuration number with the server's; only on equality
does the handler go on to submit via `doit` (`reply = none`).  The state
is returned to make explicit that the pre-check mutates nothing. -/
structure MigrationHandlerStep where
  reply : Option Err
  state : ShardKVState
deriving DecidableEq, Repr

/-- `ShardMigration` pre-check (the handler body before the `doit` call). -/
def shardMigrationCheck (kv : ShardKVState) (argsNum : Nat) : MigrationHandlerStep :=
  if argsNum < kv.Config.Num then { reply := some Err.ErrOutdatedConfig, state := kv }
  else if argsNum > kv.Config.Num then { reply := some Err.ErrUpdatingConfig, state := kv }
  else { reply := none, state := kv }

/-- The fresh state built by `StartServer` before any snapshot is
ingested: all `NShards` shards `ShardOK` with empty data, empty duplicate
table, zero-value configuration. -/
def initState (gid : Nat) : ShardKVState :=
  { gid := gid
    Shards := List.replicate NShards { Status := ShardStatus.ShardOK, Data := [] }
    DupTable := []
    Config := { Num := 0, Shards := List.replicate NShards 0, Groups := [] } }

/-- Modelled from the spec: one atom of the byte blob produced by the
external `labgob` encoder (not under `src/`); the schema is fixed, values
are written and read back in the same order. -/
inductive Token where
  | tnat (n : Nat)
  | tint (n : Int)
  | tstr (s : String)
  | tstatus (st : ShardStatus)
  | terr (e : Err)
deriving DecidableEq, Repr

/-- Modelled from the spec: length-prefixed encoding of a sequence of
values, each encoded by `enc`. -/
def encList {α : Type} (enc : α → List Token) (l : List α) : List Token :=
  Token.tnat l.length :: (l.map enc).flatten

/-- Modelled from the spec: decode `n` consecutive values with `dec`,
returning them with the unread remainder of the stream. -/
def decListAux {α : Type} (dec : List Token → Option (α × List Token)) :
    Nat → List Token → Option (List α × List Token)
  | 0, ts => some ([], ts)
  | n + 1, ts =>
    match dec ts with
    | some (a, ts') =>
      match decListAux dec n ts' with
      | some (l, rest) => some (a :: l, rest)
      | none => none
    | none => none

/-- Modelled from the spec: decode a length-prefixed sequence. -/
def decList {α : Type} (dec : List Token → Option (α × List Token)) :
    List Token → Option (List α × List Token)
  | Token.tnat n :: ts => decListAux dec n ts
  | _ => none

/-- Encoding of one key/value pair of a shard's data map. -/
def encPair (p : String × String) : List Token := [Token.tstr p.1, Token.tstr p.2]

/-- Decoding of one key/value pair of a shard's data map. -/
def decPair : List Token → Option ((String × String) × List Token)
  | Token.tstr k :: Token.tstr v :: ts => some ((k, v), ts)
  | _ => none

/-- Encoding of one `Shard` (status, then data map). -/
def encShard (sh : Shard) : List Token :=
  Token.tstatus sh.Status :: encList encPair sh.Data

/-- Decoding of one `Shard`. -/
def decShard : List Token → Option (Shard × List Token)
  | Token.tstatus st :: ts =>
    match decList decPair ts with
    | some (data, rest) => some ({ Status := st, Data := data }, rest)
    | none => none
  | _ => none

/-- Encoding of one duplicate-table binding (client id, then entry). -/
def encDupPair (p : Int × DupEntry) : List Token :=
  [Token.tint p.1, Token.tnat p.2.SN, Token.tstr p.2.Value, Token.terr p.2.Err]

/-- Decoding of one duplicate-table binding. -/
def decDupPair : List Token → Option ((Int × DupEntry) × List Token)
  | Token.tint cid :: Token.tnat sn :: Token.tstr v :: Token.terr e :: ts =>
      some ((cid, { SN := sn, Value := v, Err := e }), ts)
  | _ => none

/-- Encoding of one group-id assignment of `Config.Shards`. -/
def encNat (n : Nat) : List Token := [Token.tnat n]

/-- Decoding of one group-id assignment of `Config.Shards`. -/
def decNat : List Token → Option (Nat × List Token)
  | Token.tnat n :: ts => some (n, ts)
  | _ => none

/-- Encoding of one server name of a group roster. -/
def encStr (s : String) : List Token := [Token.tstr s]

/-- Decoding of one server name of a group roster. -/
def decStr : List Token → Option (String × List Token)
  | Token.tstr s :: ts => some (s, ts)
  | _ => none

/-- Encoding of one `Config.Groups` binding (group id, then roster). -/
def encGroup (p : Nat × List String) : List Token :=
  Token.tnat p.1 :: encList encStr p.2

/-- Decoding of one `Config.Groups` binding. -/
def decGroup : List Token → Option ((Nat × List String) × List Token)
  | Token.tnat g :: ts =>
    match decList decStr ts with
    | some (servers, rest) => some ((g, servers), rest)
    | none => none
  | _ => none

/-- Encoding of a `Config` (number, assignments, group rosters). -/
def encConfig (c : Config) : List Token :=
  Token.tnat c.Num :: (encList encNat c.Shards ++ encList encGroup c.Groups)

/-- Decoding of a `Config`. -/
def decConfig : List Token → Option (Config × List Token)
  | Token.tnat n :: ts =>
    match decList decNat ts with
    | some (shards, ts') =>
      match decList decGroup ts' with
      | some (groups, rest) => some ({ Num := n, Shards := shards, Groups := groups }, rest)
      | none => none
    | none => none
  | _ => none

/-- The snapshot blob emitted by the applier: the triple
(`Shards`, `DupTable`, `Config`) encoded in that fixed order. -/
def encodeSnapshot (kv : ShardKVState) : List Token :=
  encList encShard kv.Shards ++ encList encDupPair kv.DupTable ++ encConfig kv.Config

/-- Sequential decode of the snapshot triple, in the same fixed order;
`none` models the fatal decode error. -/
def decodeSnapshot (ts : List Token) :
    Option (List Shard × AssocMap Int DupEntry × Config) :=
  match decList decShard ts with
  | some (shards, ts') =>
    match decList decDupPair ts' with
    | some (dup, ts'') =>
      match decConfig ts'' with
      | some (config, _) => some (shards, dup, config)
      | none => none
    | none => none
  | none => none

/-- `ingestSnap`: an empty snapshot is ignored (the state is returned
unchanged); otherwise the persisted triple is replaced by the decoded
one, and a decode failure is fatal (`none`). -/
def ingestSnap (kv : ShardKVState) (snapshot : List Token) : Option ShardKVState :=
  if snapshot.length = 0 then some kv
  else
    match decodeSnapshot snapshot with
    | some (shards, dup, config) =>
        some { kv with Shards := shards, DupTable := dup, Config := config }
    | none => none

/-! ### Helper lemmas about the list and map primitives -/

theorem listSet_length {α : Type} :
    ∀ (l : List α) (i : Nat) (a : α), (listSet l i a).length = l.length := by
  intro l
  induction l with
  | nil => intro i a; rfl
  | cons x rest ih =>
    intro i a
    cases i with
    | zero => rfl
    | succ n => simp [listSet, ih]

theorem listGet_listSet_self {α : Type} :
    ∀ (l : List α) (i : Nat) (a x : α), listGet l i = some x →
      listGet (listSet l i a) i = some a := by
  intro l
  induction l with
  | nil => intro i a x h; exact absurd h (by simp [listGet])
  | cons y rest ih =>
    intro i a x h
    cases i with
    | zero => rfl
    | succ n => exact ih n a x h

theorem listGet_listSet_ne {α : Type} :
    ∀ (l : List α) (i j : Nat) (a : α), i ≠ j →
      listGet (listSet l i a) j = listGet l j := by
  intro l
  induction l with
  | nil => intro i j a _; cases i <;> rfl
  | cons y rest ih =>
    intro i j a hij
    cases i with
    | zero =>
      cases j with
      | zero => exact absurd rfl hij
      | succ m => rfl
    | succ n =>
      cases j with
      | zero => rfl
      | succ m => exact ih n m a (fun h => hij (by rw [h]))

theorem assocGet_assocPut_self {α β : Type} [DecidableEq α] :
    ∀ (m : AssocMap α β) (k : α) (v : β), assocGet (assocPut m k v) k = some v := by
  intro m
  induction m with
  | nil => intro k v; simp [assocPut, assocGet]
  | cons p rest ih =>
    intro k v
    by_cases h : p.1 = k
    · simp [assocPut, assocGet, h]
    · simp only [assocPut, assocGet]
      rw [if_neg h]
      simp only [assocGet]
      rw [if_neg h]
      exact ih k v

theorem assocGet_assocPut_ne {α β : Type} [DecidableEq α] :
    ∀ (m : AssocMap α β) (k : α) (v : β) (k' : α), k ≠ k' →
      assocGet (assocPut m k v) k' = assocGet m k' := by
  intro m
  induction m with
  | nil => intro k v k' hk; simp [assocPut, assocGet, hk]
  | cons p rest ih =>
    intro k v k' hk
    by_cases h : p.1 = k
    · have hp : p.1 ≠ k' := by rw [h]; exact hk
      simp only [assocPut]
      rw [if_pos h]
      simp only [assocGet]
      rw [if_neg hk, if_neg hp]
    · simp only [assocPut]
      rw [if_neg h]
      simp only [assocGet]
      by_cases h' : p.1 = k'
      · rw [if_pos h', if_pos h']
      · rw [if_neg h', if_neg h']
        exact ih k v k' hk

/-! ### Helper lemmas for the snapshot codec round-trip -/

theorem decListAux_enc {α : Type} (dec : List Token → Option (α × List Token))
    (enc : α → List Token)
    (helem : ∀ (a : α) (rest : List Token), dec (enc a ++ rest) = some (a, rest)) :
    ∀ (l : List α) (rest : List Token),
      decListAux dec l.length ((l.map enc).flatten ++ rest) = some (l, rest) := by
  intro l
  induction l with
  | nil => intro rest; rfl
  | cons a l ih =>
    intro rest
    simp only [List.map_cons, List.flatten_cons, List.length_cons, List.append_assoc]
    simp only [decListAux, helem, ih]

theorem decList_encList {α : Type} (dec : List Token → Option (α × List Token))
    (enc : α → List Token)
    (helem : ∀ (a : α) (rest : List Token), dec (enc a ++ rest) = some (a, rest)) :
    ∀ (l : List α) (rest : List Token),
      decList dec (encList enc l ++ rest) = some (l, rest) := by
  intro l rest
  simp only [encList, List.cons_append, decList]
  exact decListAux_enc dec enc helem l rest

theorem decPair_encPair :
    ∀ (p : String × String) (rest : List Token), decPair (encPair p ++ rest) = some (p, rest) := by
  intro p rest; cases p; rfl

theorem decShard_encShard :
    ∀ (sh : Shard) (rest : List Token), decShard (encShard sh ++ rest) = some (sh, rest) := by
  intro sh rest
  simp only [encShard, List.cons_append, decShard]
  rw [decList_encList decPair encPair decPair_encPair]

theorem decDupPair_encDupPair :
    ∀ (p : Int × DupEntry) (rest : List Token),
      decDupPair (encDupPair p ++ rest) = some (p, rest) := by
  intro p rest; cases p; rfl

theorem decNat_encNat :
    ∀ (n : Nat) (rest : List Token), decNat (encNat n ++ rest) = some (n, rest) := by
  intro n rest; rfl

theorem decStr_encStr :
    ∀ (s : String) (rest : List Token), decStr (encStr s ++ rest) = some (s, rest) := by
  intro s rest; rfl

theorem decGroup_encGroup :
    ∀ (p : Nat × List String) (rest : List Token),
      decGroup (encGroup p ++ rest) = some (p, rest) := by
  intro p rest
  cases p
  simp only [encGroup, List.cons_append, decGroup]
  rw [decList_encList decStr encStr decStr_encStr]

theorem decConfig_encConfig :
    ∀ (c : Config) (rest : List Token), decConfig (encConfig c ++ rest) = some (c, rest) := by
  intro c rest
  simp only [encConfig, List.cons_append, List.append_assoc, decConfig,
    decList_encList decNat encNat decNat_encNat,
    decList_encList decGroup encGroup decGroup_encGroup]

theorem decConfig_encConfig_nil (c : Config) : decConfig (encConfig c) = some (c, []) := by
  have h := decConfig_encConfig c []
  simpa using h

theorem decodeSnapshot_encodeSnapshot (kv : ShardKVState) :
    decodeSnapshot (encodeSnapshot kv) = some (kv.Shards, kv.DupTable, kv.Config) := by
  simp only [encodeSnapshot, decodeSnapshot, List.append_assoc,
    decList_encList decShard encShard decShard_encShard,
    decList_encList decDupPair encDupPair decDupPair_encDupPair,
    decConfig_encConfig_nil]

/-! ### Structural lemmas about the migration and reconfiguration loops -/

theorem listGet_of_lt {α : Type} :
    ∀ (l : List α) (i : Nat), i < l.length → ∃ x, listGet l i = some x := by
  intro l
  induction l with
  | nil => intro i h; exact absurd h (by simp)
  | cons x rest ih =>
    intro i h
    cases i with
    | zero => exact ⟨x, rfl⟩
    | succ n => exact ih n (Nat.lt_of_succ_lt_succ h)

theorem listGet_zipWith3 {α β γ δ : Type} (f : α → β → γ → δ) :
    ∀ (as : List α) (bs : List β) (cs : List γ) (i : Nat) (a : α) (b : β) (c : γ),
      listGet as i = some a → listGet bs i = some b → listGet cs i = some c →
      listGet (zipWith3 f as bs cs) i = some (f a b c) := by
  intro as
  induction as with
  | nil => intro bs cs i a b c ha; exact absurd ha (by simp [listGet])
  | cons x rest ih =>
    intro bs cs i a b c ha hb hc
    cases bs with
    | nil => exact absurd hb (by simp [listGet])
    | cons y bs' =>
      cases cs with
      | nil => exact absurd hc (by simp [listGet])
      | cons z cs' =>
        cases i with
        | zero =>
          simp only [listGet] at ha hb hc
          simp only [zipWith3, listGet, ha, hb, hc]
          rw [← Option.some_inj.mp ha, ← Option.some_inj.mp hb, ← Option.some_inj.mp hc]
        | succ n => exact ih bs' cs' n a b c ha hb hc

theorem any_zip_iff (f : Nat → Nat → Bool) :
    ∀ (as bs : List Nat),
      ((as.zip bs).any (fun p => f p.1 p.2) = true ↔
        ∃ i a b, listGet as i = some a ∧ listGet bs i = some b ∧ f a b = true) := by
  intro as
  induction as with
  | nil =>
    intro bs
    constructor
    · intro h; exact absurd h (by simp)
    · rintro ⟨i, a, b, ha, -, -⟩; exact absurd ha (by simp [listGet])
  | cons x rest ih =>
    intro bs
    cases bs with
    | nil =>
      constructor
      · intro h; exact absurd h (by simp)
      · rintro ⟨i, a, b, -, hb, -⟩; exact absurd hb (by simp [listGet])
    | cons y bs' =>
      simp only [List.zip_cons_cons, List.any_cons, Bool.or_eq_true]
      constructor
      · rintro (h | h)
        · exact ⟨0, x, y, rfl, rfl, h⟩
        · obtain ⟨i, a, b, ha, hb, hf⟩ := (ih bs').mp h
          exact ⟨i + 1, a, b, ha, hb, hf⟩
      · rintro ⟨i, a, b, ha, hb, hf⟩
        cases i with
        | zero =>
          left
          simp only [listGet] at ha hb
          rw [Option.some_inj.mp ha, Option.some_inj.mp hb]
          exact hf
        | succ n => exact Or.inr ((ih bs').mpr ⟨n, a, b, ha, hb, hf⟩)

theorem applyMigrationIn_spec :
    ∀ (sids : List Nat) (shards : List Shard) (data : List KVMap),
      (∀ sid ∈ sids, sid < shards.length ∧ sid < data.length) →
      ∃ shards', applyMigrationIn data shards sids = some shards' ∧
        shards'.length = shards.length ∧
        (∀ i, i ∉ sids → listGet shards' i = listGet shards i) ∧
        (∀ i sh, listGet shards i = some sh → sh.Status ≠ ShardStatus.ShardMigrationIn →
            listGet shards' i = some sh) ∧
        (∀ i sh, i ∈ sids → listGet shards i = some sh →
            sh.Status = ShardStatus.ShardMigrationIn →
            ∃ d, listGet data i = some d ∧
              listGet shards' i = some { Status := ShardStatus.ShardOK, Data := copyOfData d }) := by
  intro sids
  induction sids with
  | nil =>
    intro shards data _
    exact ⟨shards, rfl, rfl, fun i _ => rfl, fun i sh h _ => h, fun i sh hmem => absurd hmem (by simp)⟩
  | cons sid rest ih =>
    intro shards data hb
    obtain ⟨hslen, hdlen⟩ := hb sid (List.mem_cons_self sid rest)
    obtain ⟨sh, hsh⟩ := listGet_of_lt shards sid hslen
    by_cases hst : sh.Status = ShardStatus.ShardMigrationIn
    · obtain ⟨d, hd⟩ := listGet_of_lt data sid hdlen
      set newSh : Shard := { Status := ShardStatus.ShardOK, Data := copyOfData d } with hnew
      have hb' : ∀ s ∈ rest, s < (listSet shards sid newSh).length ∧ s < data.length := by
        intro s hs
        rw [listSet_length]
        exact hb s (List.mem_cons_of_mem sid hs)
      obtain ⟨shards', happ, hlen, hnot, hkeep, hin⟩ := ih (listSet shards sid newSh) data hb'
      refine ⟨shards', ?_, ?_, ?_, ?_, ?_⟩
      · simp only [applyMigrationIn, hsh, hst, hd, if_pos]
        exact happ
      · rw [hlen, listSet_length]
      · intro i hi
        have hi1 : i ≠ sid := fun h => hi (h ▸ List.mem_cons_self sid rest)
        have hi2 : i ∉ rest := fun h => hi (List.mem_cons_of_mem sid h)
        rw [hnot i hi2, listGet_listSet_ne shards sid i newSh (fun h => hi1 h.symm)]
      · intro i sh' hsh' hst'
        by_cases hisid : i = sid
        · subst hisid
          rw [hsh] at hsh'
          exact absurd (Option.some_inj.mp hsh' ▸ hst) hst'
        · have : listGet (listSet shards sid newSh) i = some sh' := by
            rw [listGet_listSet_ne shards sid i newSh (fun h => hisid h.symm)]
            exact hsh'
          exact hkeep i sh' this hst'
      · intro i sh' hmem hsh' hst'
        by_cases hisid : i = sid
        · subst hisid
          have hset : listGet (listSet shards i newSh) i = some newSh :=
            listGet_listSet_self shards i newSh sh hsh
          refine ⟨d, hd, ?_⟩
          have : newSh.Status ≠ ShardStatus.ShardMigrationIn := by
            rw [hnew]
            exact fun h => nomatch h
          rw [hkeep i newSh hset this, hnew]
        · have hmem' : i ∈ rest := by
            cases List.mem_cons.mp hmem with
            | inl h => exact absurd h hisid
            | inr h => exact h
          have : listGet (listSet shards sid newSh) i = some sh' := by
            rw [listGet_listSet_ne shards sid i newSh (fun h => hisid h.symm)]
            exact hsh'
          exact hin i sh' hmem' this hst'
    · have hb' : ∀ s ∈ rest, s < shards.length ∧ s < data.length :=
        fun s hs => hb s (List.mem_cons_of_mem sid hs)
      obtain ⟨shards', happ, hlen, hnot, hkeep, hin⟩ := ih shards data hb'
      refine ⟨shards', ?_, hlen, ?_, hkeep, ?_⟩
      · simp only [applyMigrationIn, hsh, hst, if_neg]
        exact happ
      · intro i hi
        exact hnot i (fun h => hi (List.mem_cons_of_mem sid h))
      · intro i sh' hmem hsh' hst'
        by_cases hisid : i = sid
        · subst hisid
          rw [hsh] at hsh'
          exact absurd (Option.some_inj.mp hsh' ▸ hst') hst
        · have hmem' : i ∈ rest := by
            cases List.mem_cons.mp hmem with
            | inl h => exact absurd h hisid
            | inr h => exact h
          exact hin i sh' hmem' hsh' hst'

/-! ### Claim theorems -/

/-- C9: encoding the triple (shard array, duplicate table, current
configuration) as the applier's snapshot emission does and then decoding
it as `ingestSnap` does reproduces a state with identical shard maps and
statuses, identical duplicate-table entries, and an identical
configuration: decode after encode is the identity on the persisted
triple. -/
theorem claim_C9_snapshot_roundtrip (kv : ShardKVState) :
    ingestSnap kv (encodeSnapshot kv) = some kv := by
  have hne : ¬ (encodeSnapshot kv).length = 0 := by
    simp [encodeSnapshot, encList]
  simp [ingestSnap, hne, decodeSnapshot_encodeSnapshot]

/-- C10: installing an empty snapshot is a no-op: `ingestSnap` on a
zero-length blob returns with the shard array, duplicate table and
configuration unchanged (it is not a decode error and not fatal), so a
server starting with no prior snapshot keeps its freshly initialized
state of all-`ShardOK` empty shards. -/
theorem claim_C10_empty_snapshot :
    (∀ kv : ShardKVState, ingestSnap kv [] = some kv) ∧
    (∀ gid : Nat, ingestSnap (initState gid) [] = some (initState gid)) :=
  ⟨fun _ => rfl, fun _ => rfl⟩

/-- C8: the `ShardMigration` RPC pre-check returns `ErrOutdatedConfig`
with the state unchanged when the request's config num is strictly below
the server's, `ErrUpdatingConfig` with the state unchanged when it is
strictly above, and proceeds to submit (no immediate reply) exactly when
the nums are equal. -/
theorem claim_C8_shard_migration_precheck (kv : ShardKVState) (argsNum : Nat) :
    (argsNum < kv.Config.Num →
      shardMigrationCheck kv argsNum = { reply := some Err.ErrOutdatedConfig, state := kv }) ∧
    (kv.Config.Num < argsNum →
      shardMigrationCheck kv argsNum = { reply := some Err.ErrUpdatingConfig, state := kv }) ∧
    (argsNum = kv.Config.Num →
      shardMigrationCheck kv argsNum = { reply := none, state := kv }) := by
  refine ⟨fun h => ?_, fun h => ?_, fun h => ?_⟩
  · simp [shardMigrationCheck, h]
  · have h1 : ¬ argsNum < kv.Config.Num := Nat.not_lt.mpr (Nat.le_of_lt h)
    simp [shardMigrationCheck, h1, h]
  · subst h
    simp [shardMigrationCheck]

/-- Concrete server state for the C8 witness. -/
def kvW8 : ShardKVState :=
  { gid := 1, Shards := [], DupTable := [],
    Config := { Num := 1, Shards := [], Groups := [] } }

/-- Witness for C8 at a server whose current config num is 1: request
nums 0, 2 and 1 take the three branches. -/
theorem claim_C8_shard_migration_precheck_witness :
    shardMigrationCheck kvW8 0 = { reply := some Err.ErrOutdatedConfig, state := kvW8 } ∧
    shardMigrationCheck kvW8 2 = { reply := some Err.ErrUpdatingConfig, state := kvW8 } ∧
    shardMigrationCheck kvW8 1 = { reply := none, state := kvW8 } :=
  ⟨(claim_C8_shard_migration_precheck kvW8 0).1 (by decide),
   (claim_C8_shard_migration_precheck kvW8 2).2.1 (by decide),
   (claim_C8_shard_migration_precheck kvW8 1).2.2 (by decide)⟩

/-- C4: `prepareMigration` replaces the stored configuration iff the new
configuration's num is strictly greater than the current one; when it is
less than or equal, the entire server state (configuration, shard
statuses, shard data) is unchanged and `false` is returned.  Hence the
config num applied on a server strictly increases whenever the state
changes at all. -/
theorem claim_C4_config_monotone (kv : ShardKVState) (c : Config) :
    (c.Num ≤ kv.Config.Num → prepareMigration kv c = (kv, false)) ∧
    (kv.Config.Num < c.Num → (prepareMigration kv c).1.Config = c) ∧
    (kv.Config.Num < (prepareMigration kv c).1.Config.Num ∨ (prepareMigration kv c).1 = kv) := by
  refine ⟨fun h => ?_, fun h => ?_, ?_⟩
  · have h' : kv.Config.Num ≥ c.Num := h
    simp [prepareMigration, h']
  · have h' : ¬ kv.Config.Num ≥ c.Num := Nat.not_le.mpr h
    simp [prepareMigration, h']
  · by_cases h : kv.Config.Num ≥ c.Num
    · right
      simp [prepareMigration, h]
    · left
      have hlt : kv.Config.Num < c.Num := Nat.lt_of_not_le h
      simp [prepareMigration, h]
      exact hlt

/-- Concrete server state for the C4 witness. -/
def kvW4 : ShardKVState :=
  { gid := 1, Shards := [{ Status := ShardStatus.ShardOK, Data := [] }], DupTable := [],
    Config := { Num := 1, Shards := [1], Groups := [] } }

/-- Stale configuration (num not greater) for the C4 witness. -/
def cLow4 : Config := { Num := 1, Shards := [2], Groups := [] }

/-- Newer configuration for the C4 witness. -/
def cHigh4 : Config := { Num := 2, Shards := [2], Groups := [] }

/-- Witness for C4: a num-1 config is ignored entirely by a num-1 server;
a num-2 config is installed; the installed num strictly increased. -/
theorem claim_C4_config_monotone_witness :
    prepareMigration kvW4 cLow4 = (kvW4, false) ∧
    (prepareMigration kvW4 cHigh4).1.Config = cHigh4 ∧
    (kvW4.Config.Num < (prepareMigration kvW4 cHigh4).1.Config.Num ∨
      (prepareMigration kvW4 cHigh4).1 = kvW4) :=
  ⟨(claim_C4_config_monotone kvW4 cLow4).1 (by decide),
   (claim_C4_config_monotone kvW4 cHigh4).2.1 (by decide),
   (claim_C4_config_monotone kvW4 cHigh4).2.2⟩

/-- C5: when `prepareMigration` accepts a new configuration, each shard
whose old assignment is this gid and whose new assignment differs becomes
`ShardMigrationOut`; each shard newly assigned to this gid from a
different, non-sentinel owner becomes `ShardMigrationIn`; each shard with
an unchanged assignment keeps its previous status (and data); and the
returned flag is `true` iff at least one shard was marked
`ShardMigrationOut`. -/
theorem claim_C5_prepare_shard_statuses (kv : ShardKVState) (c : Config)
    (hacc : kv.Config.Num < c.Num) :
    (∀ i og ng sh,
        listGet kv.Config.Shards i = some og → listGet c.Shards i = some ng →
        listGet kv.Shards i = some sh →
        ((og = kv.gid ∧ og ≠ ng →
            listGet (prepareMigration kv c).1.Shards i =
              some { sh with Status := ShardStatus.ShardMigrationOut }) ∧
         (ng = kv.gid ∧ og ≠ ng ∧ og ≠ 0 →
            listGet (prepareMigration kv c).1.Shards i =
              some { sh with Status := ShardStatus.ShardMigrationIn }) ∧
         (og = ng → listGet (prepareMigration kv c).1.Shards i = some sh))) ∧
    ((prepareMigration kv c).2 = true ↔
      ∃ i og ng, listGet kv.Config.Shards i = some og ∧ listGet c.Shards i = some ng ∧
        og = kv.gid ∧ og ≠ ng) := by
  have hng : ¬ kv.Config.Num ≥ c.Num := Nat.not_le.mpr hacc
  constructor
  · intro i og ng sh hog hngg hsh
    have hz := listGet_zipWith3 (shardAfterConfig kv.gid) kv.Config.Shards c.Shards kv.Shards
      i og ng sh hog hngg hsh
    refine ⟨fun h => ?_, fun h => ?_, fun h => ?_⟩
    · obtain ⟨h1, h2⟩ := h
      have h2' : ¬ kv.gid = ng := fun hh => h2 (h1.trans hh)
      have h3 : ¬ (ng = kv.gid ∧ ¬ kv.gid = 0) := fun hc => h2' hc.1.symm
      simp only [prepareMigration, hng, if_neg, not_false_iff]
      rw [hz]
      simp [shardAfterConfig, h2, h1, h2', h3]
    · obtain ⟨h1, h2, h3⟩ := h
      have h4 : ¬ og = kv.gid := fun hc => h2 (hc.trans h1.symm)
      simp only [prepareMigration, hng, if_neg, not_false_iff]
      rw [hz]
      simp [shardAfterConfig, h2, h4, h1, h3]
    · simp only [prepareMigration, hng, if_neg, not_false_iff]
      rw [hz]
      simp [shardAfterConfig, h]
  · simp only [prepareMigration, hng, if_neg, not_false_iff]
    rw [any_zip_iff (fun a b => (a != b) && (a == kv.gid)) kv.Config.Shards c.Shards]
    constructor
    · rintro ⟨i, a, b, ha, hb, hf⟩
      simp only [Bool.and_eq_true, bne_iff_ne, beq_iff_eq] at hf
      exact ⟨i, a, b, ha, hb, hf.2, hf.1⟩
    · rintro ⟨i, a, b, ha, hb, hgid, hne⟩
      refine ⟨i, a, b, ha, hb, ?_⟩
      simp only [Bool.and_eq_true, bne_iff_ne, beq_iff_eq]
      exact ⟨hne, hgid⟩

/-- Concrete server state for the C5 witness: gid 1 currently owns shards
0 and 3; the new configuration moves shard 0 away, hands shard 1 over
from group 2, hands shard 2 over from the sentinel 0, and keeps shard 3. -/
def kvW5 : ShardKVState :=
  { gid := 1
    Shards := List.replicate 4 { Status := ShardStatus.ShardOK, Data := [] }
    DupTable := []
    Config := { Num := 1, Shards := [1, 2, 0, 1], Groups := [] } }

/-- New configuration for the C5 witness. -/
def cW5 : Config := { Num := 2, Shards := [2, 1, 1, 1], Groups := [] }

/-- Witness for C5: shard 0 is marked out, shard 1 is marked in, shard 3
keeps its status, and the out-migration flag is reported. -/
theorem claim_C5_prepare_shard_statuses_witness :
    kvW5.Config.Num < cW5.Num ∧
    listGet (prepareMigration kvW5 cW5).1.Shards 0 =
      some { Status := ShardStatus.ShardMigrationOut, Data := [] } ∧
    listGet (prepareMigration kvW5 cW5).1.Shards 1 =
      some { Status := ShardStatus.ShardMigrationIn, Data := [] } ∧
    listGet (prepareMigration kvW5 cW5).1.Shards 3 =
      some { Status := ShardStatus.ShardOK, Data := [] } ∧
    (prepareMigration kvW5 cW5).2 = true := by
  have h := claim_C5_prepare_shard_statuses kvW5 cW5 (by decide)
  refine ⟨by decide, ?_, ?_, ?_, ?_⟩
  · exact (h.1 0 1 2 { Status := ShardStatus.ShardOK, Data := [] }
      (by decide) (by decide) (by decide)).1 ⟨rfl, by decide⟩
  · exact (h.1 1 2 1 { Status := ShardStatus.ShardOK, Data := [] }
      (by decide) (by decide) (by decide)).2.1 ⟨rfl, by decide, by decide⟩
  · exact (h.1 3 1 1 { Status := ShardStatus.ShardOK, Data := [] }
      (by decide) (by decide) (by decide)).2.2 rfl
  · exact h.2.mpr ⟨0, 1, 2, by decide, by decide, rfl, by decide⟩

/-- When every duplicate-table hit for the client has a different serial,
`doit` falls through to the admission and leadership checks. -/
theorem doit_of_dupMiss (kv : ShardKVState) (op : Op) (isLeader : Bool)
    (hmiss : ∀ e, assocGet kv.DupTable op.ClientId = some e → e.SN ≠ op.SN) :
    doit kv op isLeader = doitAfterDup kv op isLeader := by
  cases hdup : assocGet kv.DupTable op.ClientId with
  | some e => simp [doit, hdup, hmiss e hdup]
  | none => simp [doit, hdup]

/-- C3: in `doit`, a same-serial duplicate-table hit is answered
immediately from the cache with `OK`, before any shard-ownership check
and without submitting to the log; otherwise a client payload whose
target shard is not assigned to this group or whose status is not
`ShardOK` gets `ErrWrongGroup` without submitting; otherwise, when this
server is not the leader, `doit` returns `ErrWrongLeader`. -/
theorem claim_C3_doit_checks (kv : ShardKVState) (op : Op) (isLeader : Bool) :
    (∀ e, assocGet kv.DupTable op.ClientId = some e → e.SN = op.SN →
      doit kv op isLeader = some (DoitOutcome.reply
        { ClientId := op.ClientId, SN := op.SN, Value := e.Value, Err := Err.OK })) ∧
    ((∀ e, assocGet kv.DupTable op.ClientId = some e → e.SN ≠ op.SN) →
      ∀ pl g, op.Playload = Playload.client pl →
        listGet kv.Config.Shards pl.Shard = some g →
        (g ≠ kv.gid ∨ ∃ sh, listGet kv.Shards pl.Shard = some sh ∧
            sh.Status ≠ ShardStatus.ShardOK) →
        doit kv op isLeader = some (DoitOutcome.reply
          { ClientId := op.ClientId, SN := op.SN, Value := "", Err := Err.ErrWrongGroup })) ∧
    ((∀ e, assocGet kv.DupTable op.ClientId = some e → e.SN ≠ op.SN) →
      (∀ pl, op.Playload = Playload.client pl →
        ∃ g sh, listGet kv.Config.Shards pl.Shard = some g ∧
          listGet kv.Shards pl.Shard = some sh ∧
          g = kv.gid ∧ sh.Status = ShardStatus.ShardOK) →
      isLeader = false →
      doit kv op isLeader = some (DoitOutcome.reply
        { ClientId := op.ClientId, SN := op.SN, Value := "", Err := Err.ErrWrongLeader })) := by
  refine ⟨?_, ?_, ?_⟩
  · intro e he hsn
    simp [doit, he, hsn]
  · intro hmiss pl g hpl hg hbad
    rw [doit_of_dupMiss kv op isLeader hmiss]
    cases hbad with
    | inl hgne => simp [doitAfterDup, hpl, hg, hgne]
    | inr hb =>
      obtain ⟨sh, hsh, hbadst⟩ := hb
      by_cases hgg : g = kv.gid
      · simp [doitAfterDup, hpl, hg, hgg, hsh, hbadst]
      · simp [doitAfterDup, hpl, hg, hgg]
  · intro hmiss hown hlf
    subst hlf
    rw [doit_of_dupMiss kv op false hmiss]
    cases hple : op.Playload with
    | client pl =>
      obtain ⟨g, sh, hg, hsh, hgg, hok⟩ := hown pl hple
      simp [doitAfterDup, hple, hg, hgg, hsh, hok]
    | server pl => simp [doitAfterDup, hple]

/-- C3 witness state (a): the duplicate table caches serial 3 for client
5, so a same-serial request is answered from the cache even though the
shard is not owned here. -/
def kvW3a : ShardKVState :=
  { gid := 1
    Shards := [{ Status := ShardStatus.ShardMigrationIn, Data := [] }]
    DupTable := [(5, { SN := 3, Value := "v", Err := Err.OK })]
    Config := { Num := 2, Shards := [2], Groups := [] } }

/-- C3 witness payload. -/
def plW3 : ClientPlayload := { Ty := "Get", Key := "x", Value := "", Shard := 0 }

/-- C3 witness op: client 5, serial 3, Get on shard 0. -/
def opW3 : Op := { ClientId := 5, SN := 3, Playload := Playload.client plW3 }

/-- C3 witness state (b): no duplicate hit; shard 0 belongs to group 2,
not this group 1. -/
def kvW3b : ShardKVState :=
  { gid := 1
    Shards := [{ Status := ShardStatus.ShardOK, Data := [] }]
    DupTable := []
    Config := { Num := 2, Shards := [2], Groups := [] } }

/-- C3 witness state (c): no duplicate hit; shard 0 is owned and `OK`,
but the server is not the leader. -/
def kvW3c : ShardKVState :=
  { gid := 1
    Shards := [{ Status := ShardStatus.ShardOK, Data := [] }]
    DupTable := []
    Config := { Num := 2, Shards := [1], Groups := [] } }

/-- Witness for C3: the three branches at concrete states. -/
theorem claim_C3_doit_checks_witness :
    doit kvW3a opW3 true = some (DoitOutcome.reply
      { ClientId := 5, SN := 3, Value := "v", Err := Err.OK }) ∧
    doit kvW3b opW3 true = some (DoitOutcome.reply
      { ClientId := 5, SN := 3, Value := "", Err := Err.ErrWrongGroup }) ∧
    doit kvW3c opW3 false = some (DoitOutcome.reply
      { ClientId := 5, SN := 3, Value := "", Err := Err.ErrWrongLeader }) :=
  ⟨(claim_C3_doit_checks kvW3a opW3 true).1
      { SN := 3, Value := "v", Err := Err.OK } (by decide) (by decide),
   (claim_C3_doit_checks kvW3b opW3 true).2.1
      (fun e he => Option.noConfusion he) plW3 2 rfl (by decide) (Or.inl (by decide)),
   (claim_C3_doit_checks kvW3c opW3 false).2.2
      (fun e he => Option.noConfusion he)
      (fun pl hpl => by
        injection hpl with h
        exact h ▸ ⟨1, { Status := ShardStatus.ShardOK, Data := [] },
          by decide, by decide, rfl, rfl⟩)
      rfl⟩

/-- C7: for a freshly applied client operation (duplicate table strictly
behind the op's serial) on a valid shard index: a Get of an absent key
returns `ErrNoKey` with the shard maps unchanged, a Get of a present key
returns its value with `OK`, a Put sets the key to the given value
(overwriting any previous one), and an Append sets the key to the
previous value (empty string when absent) concatenated with the given
value — so an Append to a nonexistent key produces exactly the appended
value. -/
theorem claim_C7_client_ops (kv : ShardKVState) (op : Op) (pl : ClientPlayload) (sh : Shard)
    (hpl : op.Playload = Playload.client pl)
    (hsh : listGet kv.Shards pl.Shard = some sh)
    (hfresh : ∀ e, assocGet kv.DupTable op.ClientId = some e → e.SN < op.SN) :
    (pl.Ty = "Get" → assocGet sh.Data pl.Key = none →
      ingestCommand kv op = some
        ({ kv with
           DupTable := recordDup kv.DupTable
             { ClientId := op.ClientId, SN := op.SN, Value := "", Err := Err.ErrNoKey } },
         { ClientId := op.ClientId, SN := op.SN, Value := "", Err := Err.ErrNoKey })) ∧
    (∀ v, pl.Ty = "Get" → assocGet sh.Data pl.Key = some v →
      ingestCommand kv op = some
        ({ kv with
           DupTable := recordDup kv.DupTable
             { ClientId := op.ClientId, SN := op.SN, Value := v, Err := Err.OK } },
         { ClientId := op.ClientId, SN := op.SN, Value := v, Err := Err.OK })) ∧
    (pl.Ty = "Put" →
      ingestCommand kv op = some
        ({ kv with
           Shards := listSet kv.Shards pl.Shard
             { sh with Data := assocPut sh.Data pl.Key pl.Value },
           DupTable := recordDup kv.DupTable
             { ClientId := op.ClientId, SN := op.SN, Value := "", Err := Err.OK } },
         { ClientId := op.ClientId, SN := op.SN, Value := "", Err := Err.OK }) ∧
      assocGet (assocPut sh.Data pl.Key pl.Value) pl.Key = some pl.Value) ∧
    (pl.Ty = "Append" →
      ingestCommand kv op = some
        ({ kv with
           Shards := listSet kv.Shards pl.Shard
             { sh with Data :=
                 assocPut sh.Data pl.Key ((assocGet sh.Data pl.Key).getD "" ++ pl.Value) },
           DupTable := recordDup kv.DupTable
             { ClientId := op.ClientId, SN := op.SN, Value := "", Err := Err.OK } },
         { ClientId := op.ClientId, SN := op.SN, Value := "", Err := Err.OK }) ∧
      assocGet (assocPut sh.Data pl.Key ((assocGet sh.Data pl.Key).getD "" ++ pl.Value))
          pl.Key = some ((assocGet sh.Data pl.Key).getD "" ++ pl.Value) ∧
      (assocGet sh.Data pl.Key = none →
        assocGet (assocPut sh.Data pl.Key ((assocGet sh.Data pl.Key).getD "" ++ pl.Value))
          pl.Key = some pl.Value)) := by
  obtain ⟨ty, key, value, shard⟩ := pl
  refine ⟨?_, ?_, ?_, ?_⟩
  · intro hty hkey
    subst hty
    cases hdup : assocGet kv.DupTable op.ClientId with
    | some e =>
      have hne : e.SN ≠ op.SN := Nat.ne_of_lt (hfresh e hdup)
      simp only at hsh hkey
      simp [ingestCommand, hpl, hdup, hne, ite_self, hsh, hkey]
    | none =>
      simp only at hsh hkey
      simp [ingestCommand, hpl, hdup, hsh, hkey]
  · intro v hty hkey
    subst hty
    cases hdup : assocGet kv.DupTable op.ClientId with
    | some e =>
      have hne : e.SN ≠ op.SN := Nat.ne_of_lt (hfresh e hdup)
      simp only at hsh hkey
      simp [ingestCommand, hpl, hdup, hne, ite_self, hsh, hkey]
    | none =>
      simp only at hsh hkey
      simp [ingestCommand, hpl, hdup, hsh, hkey]
  · intro hty
    subst hty
    simp only at hsh
    refine ⟨?_, assocGet_assocPut_self _ _ _⟩
    cases hdup : assocGet kv.DupTable op.ClientId with
    | some e =>
      have hne : e.SN ≠ op.SN := Nat.ne_of_lt (hfresh e hdup)
      simp [ingestCommand, hpl, hdup, hne, ite_self, hsh]
    | none =>
      simp [ingestCommand, hpl, hdup, hsh]
  · intro hty
    subst hty
    simp only at hsh
    refine ⟨?_, assocGet_assocPut_self _ _ _, fun hnone => ?_⟩
    · cases hdup : assocGet kv.DupTable op.ClientId with
      | some e =>
        have hne : e.SN ≠ op.SN := Nat.ne_of_lt (hfresh e hdup)
        simp [ingestCommand, hpl, hdup, hne, ite_self, hsh]
      | none =>
        simp [ingestCommand, hpl, hdup, hsh]
    · simp only at hnone
      rw [hnone]
      simpa using assocGet_assocPut_self sh.Data key value

/-- C7 witness state: gid 1 owns shard 0 holding `x ↦ A`; client 9's last
recorded serial is 1, so serial-2 ops are fresh. -/
def kvW7 : ShardKVState :=
  { gid := 1
    Shards := [{ Status := ShardStatus.ShardOK, Data := [("x", "A")] }]
    DupTable := [(9, { SN := 1, Value := "", Err := Err.OK })]
    Config := { Num := 1, Shards := [1], Groups := [] } }

/-- C7 witness payload: Get of an absent key. -/
def plW7miss : ClientPlayload := { Ty := "Get", Key := "z", Value := "", Shard := 0 }

/-- C7 witness payload: Get of a present key. -/
def plW7get : ClientPlayload := { Ty := "Get", Key := "x", Value := "", Shard := 0 }

/-- C7 witness payload: Put overwriting `x`. -/
def plW7put : ClientPlayload := { Ty := "Put", Key := "x", Value := "C", Shard := 0 }

/-- C7 witness payload: Append to the nonexistent key `z`. -/
def plW7app : ClientPlayload := { Ty := "Append", Key := "z", Value := "Z", Shard := 0 }

/-- C7 witness op wrapping a payload with client 9, serial 2. -/
def opW7 (pl : ClientPlayload) : Op :=
  { ClientId := 9, SN := 2, Playload := Playload.client pl }

/-- The shard read by every C7 witness op. -/
def shW7 : Shard := { Status := ShardStatus.ShardOK, Data := [("x", "A")] }

/-- Witness for C7: the four client-op behaviors at a concrete state. -/
theorem claim_C7_client_ops_witness :
    (∀ e, assocGet kvW7.DupTable (9 : Int) = some e → e.SN < 2) ∧
    ingestCommand kvW7 (opW7 plW7miss) = some
      ({ kvW7 with
         DupTable := recordDup kvW7.DupTable
           { ClientId := 9, SN := 2, Value := "", Err := Err.ErrNoKey } },
       { ClientId := 9, SN := 2, Value := "", Err := Err.ErrNoKey }) ∧
    ingestCommand kvW7 (opW7 plW7get) = some
      ({ kvW7 with
         DupTable := recordDup kvW7.DupTable
           { ClientId := 9, SN := 2, Value := "A", Err := Err.OK } },
       { ClientId := 9, SN := 2, Value := "A", Err := Err.OK }) ∧
    (ingestCommand kvW7 (opW7 plW7put) = some
      ({ kvW7 with
         Shards := listSet kvW7.Shards 0 { shW7 with Data := assocPut shW7.Data "x" "C" },
         DupTable := recordDup kvW7.DupTable
           { ClientId := 9, SN := 2, Value := "", Err := Err.OK } },
       { ClientId := 9, SN := 2, Value := "", Err := Err.OK }) ∧
     assocGet (assocPut shW7.Data "x" "C") "x" = some "C") ∧
    (ingestCommand kvW7 (opW7 plW7app) = some
      ({ kvW7 with
         Shards := listSet kvW7.Shards 0
           { shW7 with Data := assocPut shW7.Data "z" ((assocGet shW7.Data "z").getD "" ++ "Z") },
         DupTable := recordDup kvW7.DupTable
           { ClientId := 9, SN := 2, Value := "", Err := Err.OK } },
       { ClientId := 9, SN := 2, Value := "", Err := Err.OK }) ∧
     assocGet (assocPut shW7.Data "z" ((assocGet shW7.Data "z").getD "" ++ "Z")) "z" =
       some ((assocGet shW7.Data "z").getD "" ++ "Z") ∧
     (assocGet shW7.Data "z" = none →
       assocGet (assocPut shW7.Data "z" ((assocGet shW7.Data "z").getD "" ++ "Z")) "z" =
         some "Z")) := by
  have hfresh : ∀ e, assocGet kvW7.DupTable (9 : Int) = some e → e.SN < 2 := by
    intro e he
    have h : ({ SN := 1, Value := "", Err := Err.OK } : DupEntry) = e := Option.some_inj.mp he
    rw [← h]
    decide
  refine ⟨hfresh, ?_, ?_, ?_, ?_⟩
  · exact (claim_C7_client_ops kvW7 (opW7 plW7miss) plW7miss shW7 rfl (by decide) hfresh).1
      rfl (by decide)
  · exact (claim_C7_client_ops kvW7 (opW7 plW7get) plW7get shW7 rfl (by decide) hfresh).2.1
      "A" rfl (by decide)
  · exact (claim_C7_client_ops kvW7 (opW7 plW7put) plW7put shW7 rfl (by decide) hfresh).2.2.1 rfl
  · exact (claim_C7_client_ops kvW7 (opW7 plW7app) plW7app shW7 rfl (by decide) hfresh).2.2.2 rfl

/-- C6: a MigrationIn payload applied by the applier replaces the data of
each listed shard whose status is `ShardMigrationIn` with a deep copy of
the payload's map for that shard and flips its status to `ShardOK`;
every unlisted shard and every listed shard whose status is not
`ShardMigrationIn` (in particular one already `ShardOK`) is unchanged;
the result is `OK` and is recorded in the duplicate table under the op's
client id (the source group id) and serial (the config num), so a
retried MigrationIn is a no-op returning `OK`. -/
theorem claim_C6_migration_in (kv : ShardKVState) (op : Op) (pl : ServerPlayload)
    (hpl : op.Playload = Playload.server pl) (hty : pl.Ty = "MigrationIn")
    (hbound : ∀ sid ∈ pl.Sids, sid < kv.Shards.length ∧ sid < pl.Data.length)
    (hdup : ∀ e, assocGet kv.DupTable op.ClientId = some e → e.SN = op.SN →
        e.Err = Err.OK ∧ e.Value = "") :
    ∃ shards',
      ingestCommand kv op = some
        ({ kv with
           Shards := shards',
           DupTable := assocPut kv.DupTable op.ClientId
             { SN := op.SN, Value := "", Err := Err.OK } },
         { ClientId := op.ClientId, SN := op.SN, Value := "", Err := Err.OK }) ∧
      (∀ i, i ∉ pl.Sids → listGet shards' i = listGet kv.Shards i) ∧
      (∀ i sh, listGet kv.Shards i = some sh → sh.Status ≠ ShardStatus.ShardMigrationIn →
          listGet shards' i = some sh) ∧
      (∀ i sh, i ∈ pl.Sids → listGet kv.Shards i = some sh →
          sh.Status = ShardStatus.ShardMigrationIn →
          ∃ d, listGet pl.Data i = some d ∧
            listGet shards' i = some { Status := ShardStatus.ShardOK, Data := copyOfData d }) := by
  obtain ⟨shards', happ, hlen, hnot, hkeep, hin⟩ :=
    applyMigrationIn_spec pl.Sids kv.Shards pl.Data hbound
  refine ⟨shards', ?_, hnot, hkeep, hin⟩
  cases hd : assocGet kv.DupTable op.ClientId with
  | none => simp [ingestCommand, hpl, hty, hd, happ, recordDup]
  | some e =>
    by_cases hsn : e.SN = op.SN
    · obtain ⟨herr, hval⟩ := hdup e hd hsn
      simp [ingestCommand, hpl, hty, hd, hsn, herr, hval, happ, recordDup]
    · simp [ingestCommand, hpl, hty, hd, hsn, ite_self, happ, recordDup]

/-- C6 witness state: gid 2 with shard 0 `ShardMigrationIn` and shard 1
already `ShardOK` holding `y ↦ B`. -/
def kvW6 : ShardKVState :=
  { gid := 2
    Shards := [{ Status := ShardStatus.ShardMigrationIn, Data := [] },
               { Status := ShardStatus.ShardOK, Data := [("y", "B")] }]
    DupTable := []
    Config := { Num := 3, Shards := [2, 2], Groups := [] } }

/-- C6 witness payload: shards 0 and 1 listed, with data for both. -/
def plW6 : ServerPlayload :=
  { Ty := "MigrationIn", Sids := [0, 1], Data := [[("x", "A")], []],
    Config := { Num := 0, Shards := [], Groups := [] } }

/-- C6 witness op: source group 1 at config num 3. -/
def opW6 : Op := { ClientId := 1, SN := 3, Playload := Playload.server plW6 }

/-- Witness for C6 at a concrete migration payload. -/
theorem claim_C6_migration_in_witness :
    (∀ sid ∈ plW6.Sids, sid < kvW6.Shards.length ∧ sid < plW6.Data.length) ∧
    ∃ shards',
      ingestCommand kvW6 opW6 = some
        ({ kvW6 with
           Shards := shards',
           DupTable := assocPut kvW6.DupTable 1 { SN := 3, Value := "", Err := Err.OK } },
         { ClientId := 1, SN := 3, Value := "", Err := Err.OK }) ∧
      (∀ i, i ∉ plW6.Sids → listGet shards' i = listGet kvW6.Shards i) ∧
      (∀ i sh, listGet kvW6.Shards i = some sh → sh.Status ≠ ShardStatus.ShardMigrationIn →
          listGet shards' i = some sh) ∧
      (∀ i sh, i ∈ plW6.Sids → listGet kvW6.Shards i = some sh →
          sh.Status = ShardStatus.ShardMigrationIn →
          ∃ d, listGet plW6.Data i = some d ∧
            listGet shards' i = some { Status := ShardStatus.ShardOK, Data := copyOfData d }) :=
  ⟨by decide,
   claim_C6_migration_in kvW6 opW6 plW6 rfl rfl (by decide)
     (fun e he => Option.noConfusion he)⟩

/-- C1 failing state: client 7's serial 1 is already recorded in the
duplicate table (its Append was applied, giving `x ↦ A`), and the same
`(clientId 7, serial 1)` Append entry is committed again. -/
def kvC1 : ShardKVState :=
  { gid := 1
    Shards := [{ Status := ShardStatus.ShardOK, Data := [("x", "A")] }]
    DupTable := [(7, { SN := 1, Value := "", Err := Err.OK })]
    Config := { Num := 1, Shards := [1], Groups := [] } }

/-- The retried `(clientId 7, serial 1)` Append entry for C1. -/
def opC1 : Op :=
  { ClientId := 7, SN := 1
    Playload := Playload.client { Ty := "Append", Key := "x", Value := "A", Shard := 0 } }

/-- C1: the claim says that when the duplicate table's recorded serial
is ≥ the entry's serial, no state mutation is applied, so a retried
Append does not concatenate twice.  The code violates this: the
duplicate check in `ingestCommand` pre-loads the cached result but does
not return, control falls through into the payload switch, and the
Append is applied a second time — evaluated here, the retried
`Append("x","A")` at recorded serial = incoming serial = 1 turns the
stored value into `"AA"` while still reporting the cached `OK`. -/
theorem claim_C1_duplicate_append_reapplied :
    assocGet kvC1.DupTable 7 = some { SN := 1, Value := "", Err := Err.OK } ∧
    (ingestCommand kvC1 opC1).map (fun out => out.2.Err) = some Err.OK ∧
    (ingestCommand kvC1 opC1).bind (fun out => listGet out.1.Shards 0) =
      some { Status := ShardStatus.ShardOK, Data := [("x", "AA")] } :=
  ⟨by decide, by decide, by decide⟩

/-- C2 failing state: client 7's recorded serial is 2, and a stale
serial-1 entry of the same client is committed afterwards. -/
def kvC2 : ShardKVState :=
  { gid := 1
    Shards := [{ Status := ShardStatus.ShardOK, Data := [("x", "A")] }]
    DupTable := [(7, { SN := 2, Value := "B", Err := Err.OK })]
    Config := { Num := 1, Shards := [1], Groups := [] } }

/-- The stale `(clientId 7, serial 1)` Put entry for C2. -/
def opC2 : Op :=
  { ClientId := 7, SN := 1
    Playload := Playload.client { Ty := "Put", Key := "x", Value := "A", Shard := 0 } }

/-- C2: the claim says the serial stored in the duplicate table never
decreases across an applier step.  The code violates this: because the
duplicate check in `ingestCommand` does not return, a stale lower-serial
entry is re-executed and the final duplicate-table write records the
stale serial — evaluated here, client 7's entry drops from serial 2 to
serial 1. -/
theorem claim_C2_dup_serial_decreases :
    assocGet kvC2.DupTable 7 = some { SN := 2, Value := "B", Err := Err.OK } ∧
    (ingestCommand kvC2 opC2).map (fun out => assocGet out.1.DupTable 7) =
      some (some { SN := 1, Value := "", Err := Err.OK }) :=
  ⟨by decide, by decide⟩
